import Mathlib

/-!
Shallow embedding of `node/node.go` (EigenDA operator node core): the batch
store/validate/sign pipeline (`ProcessBatch`, `ValidateBatch`, `validateBlob`),
the expiration sweeper's time-budget computation (`expireLoop`), and the
socket-reconciliation writers (`Start`, `updateSocketAddress`,
`checkRegisteredNodeIpOnChain`, `checkCurrentNodeIp`).

External collaborators (Store, ChainState, Validator, Transactor,
PubIPProvider) are modelled by passing their outcomes as parameters; the
control flow acting on those outcomes is translated line by line from the
source.
-/

namespace EigendaNode

/-- Errors are modelled as strings, matching Go's `error` values whose only
observable structure in this file is wrapping via `fmt.Errorf` prefixes. -/
abbrev Err := String

/-- A database key (an element of the `[][]byte` key list). -/
abbrev Key := ℕ

/-- The 32-byte batch header hash from `header.GetBatchHeaderHash()`. -/
abbrev Hash := ℕ

/-- Operator state snapshot fetched from `ChainState.GetOperatorStateByOperator`. -/
structure OperatorState where
  blockNumber : ℕ
deriving DecidableEq, Repr

/-- A BLS signature value; `signer` identifies the key pair, `message` the
hash signed. Models `core.Signature` abstractly but injectively. -/
structure Signature where
  signer : ℕ
  message : Hash
deriving DecidableEq, Repr

/-- `n.KeyPair.SignMessage(batchHeaderHash)` (node.go:305): a pure function of
the key pair and the message. -/
def signMessage (keyPair : ℕ) (msg : Hash) : Signature :=
  ⟨keyPair, msg⟩

/-- Outcome of `n.Store.StoreBatch` (node.go:262), an external collaborator:
a fresh atomic write returning the written keys, the distinguished
`ErrBatchAlreadyExist` outcome, or a genuine error. -/
inductive StoreOutcome where
  | fresh (keys : List Key)
  | alreadyExists
  | failure (e : Err)
deriving DecidableEq, Repr

/-- The `storeResult` struct sent on `storeChan` (node.go:251-258): `err` is
whether StoreBatch failed; `keys` are the keys stored for the batch
(`nil` if `err` is non-nil or the batch already existed). -/
structure storeResult where
  err : Option Err
  keys : Option (List Key)
deriving DecidableEq, Repr

/-- The goroutine body launched by ProcessBatch (node.go:260-277): normalizes
`ErrBatchAlreadyExist` to `{err: nil, keys: nil}`, wraps a genuine error with
"failed to store batch: ", and forwards fresh keys unchanged. -/
def storeGoroutine : StoreOutcome → storeResult
  | StoreOutcome.fresh keys => ⟨none, some keys⟩
  | StoreOutcome.alreadyExists => ⟨none, none⟩
  | StoreOutcome.failure e => ⟨some ("failed to store batch: " ++ e), none⟩

/-- Whether the store operation succeeded for batch semantics (a fresh write
or the idempotent already-exists outcome), i.e. `storeResult.err == nil`. -/
def storeOk : StoreOutcome → Bool
  | StoreOutcome.failure _ => false
  | _ => true

/-- The keys a `StoreBatch` call actually wrote: the key set on a fresh
write, nothing otherwise (the write is atomic, so a failed call writes
nothing, and an already-existing batch is not re-written). -/
def freshKeysWritten : StoreOutcome → List Key
  | StoreOutcome.fresh keys => keys
  | _ => []

/-- `validateBlob` (node.go:445-453) sends exactly one message on `out`:
the validator's verdict for the blob (an error, or nil on pass). -/
def validateBlob_sends (verdict : Option Err) : List (Option Err) :=
  [verdict]

/-- Capacity of the result channel `out := make(chan error, len(blobs))`
(node.go:324). -/
def valChanCapacity (numBlobs : ℕ) : ℕ :=
  numBlobs

/-- One validation job is submitted to the worker pool per blob
(node.go:325-330). -/
def jobsSubmitted (numBlobs : ℕ) : ℕ :=
  numBlobs

/-- Total messages sent on the result channel: every submitted job runs
`validateBlob`, which sends exactly one verdict. -/
def totalSends (verdicts : List (Option Err)) : ℕ :=
  (verdicts.map (fun v => (validateBlob_sends v).length)).sum

/-- Number of `Validator.ValidateBlob` invocations: one per submitted job
(node.go:446). -/
def validatorCalls (verdicts : List (Option Err)) : ℕ :=
  verdicts.length

/-- The collection loop (node.go:332-337): receive one result per blob in
arrival order, returning the first non-nil error immediately; return nil
once every result was received without error. -/
def collectResults : List (Option Err) → Option Err
  | [] => none
  | none :: rest => collectResults rest
  | some e :: _ => some e

/-- Number of receives the collection loop performs before returning. -/
def collectCount : List (Option Err) → ℕ
  | [] => 0
  | none :: rest => 1 + collectCount rest
  | some _ :: _ => 1

/-- `ValidateBatch` (node.go:317-341): fetch the operator state (outcome
passed in as `opStateRes`), return its error on failure; otherwise submit one
job per blob and collect the results as they arrive (`arrival` is the
channel's arrival order of the per-blob verdicts). -/
def ValidateBatch (opStateRes : Except Err OperatorState)
    (arrival : List (Option Err)) : Option Err :=
  match opStateRes with
  | Except.error e => some e
  | Except.ok _ => collectResults arrival

/-- Inputs of one `ProcessBatch` call: the key pair, the outcome of each
external collaborator call it makes, the per-blob validator verdicts, the
order those verdicts arrive on the result channel, and whether the
best-effort `DeleteKeys` succeeds if invoked. -/
structure ProcessInput where
  keyPair : ℕ
  hashResult : Except Err Hash
  storeOutcome : StoreOutcome
  opStateResult : Except Err OperatorState
  blobVerdicts : List (Option Err)
  arrival : List (Option Err)
  deleteOk : Bool

/-- Observable outcome of one `ProcessBatch` call: the returned pair, which
effects ran, the keys passed to `DeleteKeys` (if called), and which of this
batch's freshly written keys remain retrievable in the store on return. -/
structure ProcessResult where
  sig : Option Signature
  err : Option Err
  storeRan : Bool
  validateRan : Bool
  deleteCalled : Bool
  deletedKeys : List Key
  remainingKeys : List Key
deriving DecidableEq, Repr

/-- `ProcessBatch` (node.go:230-315), translated branch by branch:
hash failure returns early; otherwise the store goroutine runs concurrently
with validation; a validation failure receives the store result and calls
`DeleteKeys` exactly when `result.keys != nil`, then returns the wrapped
validation error; with validation passed, the store result is received and on
`result.err != nil` the code returns `nil, err` where `err` is the (nil)
validation error variable — NOT `result.err` (node.go:298-301); otherwise the
batch header hash is signed and returned. -/
def ProcessBatch (inp : ProcessInput) : ProcessResult :=
  match inp.hashResult with
  | Except.error e =>
      ⟨none, some e, false, false, false, [], []⟩
  | Except.ok h =>
      let res := storeGoroutine inp.storeOutcome
      match ValidateBatch inp.opStateResult inp.arrival with
      | some ve =>
          match res.keys with
          | some keys =>
              ⟨none, some ("failed to validate batch: " ++ ve), true, true,
                true, keys, if inp.deleteOk then [] else freshKeysWritten inp.storeOutcome⟩
          | none =>
              ⟨none, some ("failed to validate batch: " ++ ve), true, true,
                false, [], freshKeysWritten inp.storeOutcome⟩
      | none =>
          match res.err with
          | some _ =>
              ⟨none, none, true, true, false, [], freshKeysWritten inp.storeOutcome⟩
          | none =>
              ⟨some (signMessage inp.keyPair h), none, true, true,
                false, [], freshKeysWritten inp.storeOutcome⟩

/-- `gcPercentageTime = 0.1` (node.go:31-34), as an exact rational. -/
def gcPercentageTime : ℚ :=
  1 / 10

/-- The time budget `expireLoop` passes to `DeleteExpiredEntries` on each tick
(node.go:208): `uint64(math.Max(float64(P)*gcPercentageTime, 1.0))`, in exact
rational arithmetic. The Go↔uint64 conversion truncates toward zero, modelled
by `Nat.floor`. (At the magnitudes of a poll-interval config, float64 rounding
of `P*0.1` cannot move the value across an integer boundary, so the exact
model and the float computation take the same floor.) -/
def gcTimeLimitSec (pollIntervalSec : ℕ) : ℕ :=
  ⌊max ((pollIntervalSec : ℚ) * gcPercentageTime) 1⌋₊

/-- Modelled from the spec: the budget formula as the spec states it,
`max(0.1*P, 1)` seconds as an exact rational, for comparison with
`gcTimeLimitSec`. -/
def specGcBudget (pollIntervalSec : ℕ) : ℚ :=
  max ((pollIntervalSec : ℚ) * (1 / 10)) 1

/-- Go's `time.NewTimer` delivers exactly one value on its channel, and the
loop in `checkCurrentNodeIp` (node.go:381-396) never calls `Reset`, so over
the whole run at most one receive from `t.C` ever succeeds. -/
def timerDeliveries : ℕ :=
  1

/-- Number of executions of the poll body (public-IP query + socket update,
node.go:387-393) in a run of `checkCurrentNodeIp` during which `elapsed` poll
intervals have passed: each execution consumes one delivery from the timer
channel, and only `timerDeliveries` are ever available. -/
def checkCurrentNodeIp_pollCount (elapsed : ℕ) : ℕ :=
  min elapsed timerDeliveries

/-- Modelled from the spec: the local-IP poll fires on every elapsed
interval. -/
def specPollCount (elapsed : ℕ) : ℕ :=
  elapsed

/-- The node's socket state: the `CurrentSocket` field guarded by `n.mu`. -/
structure SocketState where
  currentSocket : String
deriving DecidableEq, Repr

/-- `updateSocketAddress` (node.go:343-358), with the transactor call's
outcome passed in as `txResult`. Returns the new state and whether a
socket-change signal (`Metrics.RecordSocketAddressChange`) was emitted:
no-op when the new address equals `CurrentSocket`; on transactor failure the
error is logged and the state left unchanged; on success `CurrentSocket` is
set to the new address. -/
def updateSocketAddress (st : SocketState) (newSocketAddr : String)
    (txResult : Option Err) : SocketState × Bool :=
  if newSocketAddr = st.currentSocket then (st, false)
  else
    match txResult with
    | some _ => (st, false)
    | none => (⟨newSocketAddr⟩, true)

/-- One event-handling step of the on-chain watch loop
`checkRegisteredNodeIpOnChain` (node.go:370-376): under the lock, overwrite
`CurrentSocket` with the observed on-chain socket when it differs. -/
def watchEventStep (st : SocketState) (observed : String) : SocketState :=
  if observed ≠ st.currentSocket then ⟨observed⟩ else st

/-- Atomic actions relevant to the socket lock discipline. -/
inductive SockAction where
  | lock
  | unlock
  | writeSocket
  | startWatcher
  | other
deriving DecidableEq, Repr

/-- Action trace of one `updateSocketAddress` call (node.go:343-358):
`n.mu.Lock()` with a deferred `Unlock`; `CurrentSocket` is written only when
the address differs (`changed`) and the transactor call succeeds (`txOk`). -/
def updateSocketAddress_trace (changed txOk : Bool) : List SockAction :=
  if changed && txOk then
    [SockAction.lock, SockAction.writeSocket, SockAction.unlock]
  else
    [SockAction.lock, SockAction.unlock]

/-- Action trace of one event iteration of `checkRegisteredNodeIpOnChain`
(node.go:370-376): `n.mu.Lock()`, conditional write, `n.mu.Unlock()`. -/
def watchEvent_trace (differs : Bool) : List SockAction :=
  if differs then
    [SockAction.lock, SockAction.writeSocket, SockAction.unlock]
  else
    [SockAction.lock, SockAction.unlock]

/-- Socket-relevant action trace of `Start` (node.go:185-190): the assignment
`n.CurrentSocket = socket` happens with no lock taken, and only afterwards
(when `PubIPCheckInterval > 0`, i.e. `watchersEnabled`) are the two watcher
goroutines launched. -/
def start_trace (watchersEnabled : Bool) : List SockAction :=
  SockAction.writeSocket ::
    (if watchersEnabled then [SockAction.startWatcher, SockAction.startWatcher] else [])

/-- Checks that every `writeSocket` in a trace happens at positive lock
depth, threading the current depth `d`. -/
def writesLocked : List SockAction → ℕ → Bool
  | [], _ => true
  | SockAction.lock :: rest, d => writesLocked rest (d + 1)
  | SockAction.unlock :: rest, d => writesLocked rest (d - 1)
  | SockAction.writeSocket :: rest, d => decide (0 < d) && writesLocked rest d
  | _ :: rest, d => writesLocked rest d

/-- A trace mutates the socket only while holding the mutex. -/
def writesUnderMutex (t : List SockAction) : Bool :=
  writesLocked t 0

/-! ### Helper lemmas -/

theorem collectResults_eq_none_iff (l : List (Option Err)) :
    collectResults l = none ↔ ∀ v ∈ l, v = none := by
  induction l with
  | nil => simp [collectResults]
  | cons hd tl ih =>
    cases hd with
    | none => simp [collectResults, ih]
    | some e => simp [collectResults]

theorem validateBatch_eq_none_iff (opState : OperatorState)
    (verdicts arrival : List (Option Err)) (hperm : arrival.Perm verdicts) :
    ValidateBatch (Except.ok opState) arrival = none ↔ ∀ v ∈ verdicts, v = none := by
  rw [ValidateBatch, collectResults_eq_none_iff]
  exact ⟨fun hall v hv => hall v (hperm.mem_iff.mpr hv),
    fun hall v hv => hall v (hperm.mem_iff.mp hv)⟩

theorem storeGoroutine_err_none_iff (o : StoreOutcome) :
    (storeGoroutine o).err = none ↔ storeOk o = true := by
  cases o <;> simp [storeGoroutine, storeOk]

theorem collectResults_append_passes (pre rest : List (Option Err))
    (hpre : ∀ v ∈ pre, v = none) :
    collectResults (pre ++ rest) = collectResults rest := by
  induction pre with
  | nil => rfl
  | cons hd tl ih =>
    have hhd : hd = none := hpre hd (List.mem_cons_self hd tl)
    subst hhd
    simpa [collectResults] using ih (fun v hv => hpre v (List.mem_cons_of_mem _ hv))

theorem collectCount_append_passes (pre rest : List (Option Err))
    (hpre : ∀ v ∈ pre, v = none) :
    collectCount (pre ++ rest) = pre.length + collectCount rest := by
  induction pre with
  | nil => simp
  | cons hd tl ih =>
    have hhd : hd = none := hpre hd (List.mem_cons_self hd tl)
    subst hhd
    have ih2 := ih (fun v hv => hpre v (List.mem_cons_of_mem _ hv))
    simp only [List.cons_append, collectCount, List.length_cons, List.append_eq] at ih2 ⊢
    omega

theorem totalSends_eq_length (verdicts : List (Option Err)) :
    totalSends verdicts = verdicts.length := by
  induction verdicts with
  | nil => rfl
  | cons hd tl ih =>
    have ih2 : totalSends tl = tl.length := ih
    simp only [totalSends, validateBlob_sends, List.map_cons, List.sum_cons,
      List.length_cons, List.length_nil] at ih2 ⊢
    omega

/-! ### Claim theorems -/

/-- C1: a non-null signature is returned by `ProcessBatch` if and only if
storage succeeded (a fresh write or the idempotent already-exists outcome)
and validation of every blob succeeded (the operator-state fetch returned and
every blob's verdict was pass); in every other case the returned signature is
null. -/
theorem processBatch_signature_iff (inp : ProcessInput)
    (hperm : inp.arrival.Perm inp.blobVerdicts) :
    (ProcessBatch inp).sig ≠ none ↔
      (ProcessBatch inp).storeRan = true ∧ storeOk inp.storeOutcome = true ∧
      (∃ s, inp.opStateResult = Except.ok s) ∧ ∀ v ∈ inp.blobVerdicts, v = none := by
  cases hh : inp.hashResult with
  | error e => simp [ProcessBatch, hh]
  | ok h =>
    cases hop : inp.opStateResult with
    | error e =>
      cases ho : inp.storeOutcome <;>
        simp [ProcessBatch, ValidateBatch, storeGoroutine, hh, hop, ho]
    | ok s =>
      cases hc : collectResults inp.arrival with
      | some ve =>
        have hnone : ¬ ∀ v ∈ inp.blobVerdicts, v = none := by
          intro hall
          have hcn : collectResults inp.arrival = none :=
            (collectResults_eq_none_iff _).mpr
              (fun v hv => hall v (hperm.mem_iff.mp hv))
          rw [hcn] at hc
          exact Option.noConfusion hc
        cases ho : inp.storeOutcome <;>
          simp [ProcessBatch, ValidateBatch, storeGoroutine, hh, hop, ho, hc, hnone]
      | none =>
        have hall : ∀ v ∈ inp.blobVerdicts, v = none :=
          fun v hv => ((collectResults_eq_none_iff _).mp hc) v (hperm.mem_iff.mpr hv)
        cases ho : inp.storeOutcome
        all_goals simp [ProcessBatch, ValidateBatch, storeGoroutine, storeOk, hh, hop, ho,
          hc, signMessage]
        all_goals exact hall

/-- Concrete instantiation of C1: a fresh store with two all-pass blobs. -/
def c1Input : ProcessInput :=
  ⟨1, Except.ok 42, StoreOutcome.fresh [0, 1], Except.ok ⟨3⟩,
    [none, none], [none, none], true⟩

theorem processBatch_signature_iff_witness :
    (ProcessBatch c1Input).sig ≠ none ↔
      (ProcessBatch c1Input).storeRan = true ∧ storeOk c1Input.storeOutcome = true ∧
      (∃ s, c1Input.opStateResult = Except.ok s) ∧ ∀ v ∈ c1Input.blobVerdicts, v = none :=
  processBatch_signature_iff c1Input (List.Perm.refl _)

/-- C2: when storage was a fresh write and validation fails, `ProcessBatch`
receives the store result, calls the best-effort `DeleteKeys` on exactly the
freshly written key set, and returns the (wrapped) validation error with a
null signature; the returned error is the validation error whether or not the
delete succeeds, and when the delete succeeds none of the batch's keys remain
retrievable. -/
theorem processBatch_rollback (inp : ProcessInput) (h : Hash) (keys : List Key)
    (ve : Err) (hh : inp.hashResult = Except.ok h)
    (hfresh : inp.storeOutcome = StoreOutcome.fresh keys)
    (hval : ValidateBatch inp.opStateResult inp.arrival = some ve) :
    (ProcessBatch inp).deleteCalled = true ∧
    (ProcessBatch inp).deletedKeys = keys ∧
    (ProcessBatch inp).sig = none ∧
    (ProcessBatch inp).err = some ("failed to validate batch: " ++ ve) ∧
    (inp.deleteOk = true → (ProcessBatch inp).remainingKeys = []) := by
  unfold ProcessBatch
  rw [hh, hval, hfresh]
  simp [storeGoroutine, freshKeysWritten]
  intro hdel
  simp [hdel]

/-- Concrete instantiation of C2: fresh keys `[10, 11]`, one failing blob. -/
def c2Input : ProcessInput :=
  ⟨1, Except.ok 5, StoreOutcome.fresh [10, 11], Except.ok ⟨2⟩,
    [some "bad chunk"], [some "bad chunk"], true⟩

theorem processBatch_rollback_witness :
    (ProcessBatch c2Input).deleteCalled = true ∧
    (ProcessBatch c2Input).deletedKeys = [10, 11] ∧
    (ProcessBatch c2Input).sig = none ∧
    (ProcessBatch c2Input).err = some ("failed to validate batch: " ++ "bad chunk") ∧
    (c2Input.deleteOk = true → (ProcessBatch c2Input).remainingKeys = []) :=
  processBatch_rollback c2Input 5 [10, 11] "bad chunk" rfl rfl rfl

/-- Concrete instantiation of C3: valid batch, genuine storage failure. -/
def c3Input : ProcessInput :=
  ⟨1, Except.ok 7, StoreOutcome.failure "disk full", Except.ok ⟨4⟩,
    [none], [none], true⟩

/-- C3 (code bug): with validation passed and a genuine (non-already-exists)
storage failure, the code at node.go:298-301 returns `nil, err` where `err`
is the stale — and here nil — validation-error variable, instead of
`result.err`; the caller receives a nil signature AND a nil error, so the
storage failure is not propagated as the spec requires. -/
theorem processBatch_storeFailure_nil_error :
    storeOk c3Input.storeOutcome = false ∧
    ValidateBatch c3Input.opStateResult c3Input.arrival = none ∧
    (storeGoroutine c3Input.storeOutcome).err =
      some ("failed to store batch: " ++ "disk full") ∧
    (ProcessBatch c3Input).err = none ∧
    (ProcessBatch c3Input).sig = none :=
  ⟨rfl, rfl, rfl, rfl, rfl⟩

/-- C4 counterexample: at poll interval 15 s the code passes the truncated
budget of 1 s to `DeleteExpiredEntries` (the `uint64` conversion drops the
fraction), while the spec formula `max(0.1*P, 1)` gives 1.5 s. -/
theorem gcBudget_spec_counterexample :
    gcTimeLimitSec 15 = 1 ∧ specGcBudget 15 = 3 / 2 ∧
    (gcTimeLimitSec 15 : ℚ) ≠ specGcBudget 15 := by
  have hmax : max ((15 : ℚ) * (1 / 10)) 1 = 3 / 2 := by
    rw [max_eq_left (by norm_num : (1 : ℚ) ≤ 15 * (1 / 10))]
    norm_num
  have hlim : gcTimeLimitSec 15 = 1 := by
    unfold gcTimeLimitSec gcPercentageTime
    rw [show ((15 : ℕ) : ℚ) = (15 : ℚ) by norm_num, hmax,
      Nat.floor_eq_iff (by norm_num : (0 : ℚ) ≤ 3 / 2)]
    norm_num
  have hspec : specGcBudget 15 = 3 / 2 := by
    unfold specGcBudget
    rw [show ((15 : ℕ) : ℚ) = (15 : ℚ) by norm_num, hmax]
  refine ⟨hlim, hspec, ?_⟩
  rw [hlim, hspec]
  norm_num

/-- C4 amended: for every positive poll interval `P` (whole seconds), the
budget passed to `DeleteExpiredEntries` equals the whole-second truncation of
the spec formula, `max(⌊P/10⌋, 1)` seconds: the float product `0.1*P` is
converted to `uint64`, which drops any fractional part. -/
theorem gcTimeLimitSec_eq_max_div (P : ℕ) (hP : 0 < P) :
    gcTimeLimitSec P = max (P / 10) 1 := by
  unfold gcTimeLimitSec gcPercentageTime
  rcases lt_or_le P 10 with hlt | hge
  · have hle : (P : ℚ) * (1 / 10) ≤ 1 := by
      rw [mul_one_div, div_le_one (by norm_num : (0 : ℚ) < 10)]
      exact_mod_cast le_of_lt hlt
    rw [max_eq_right hle, Nat.floor_one]
    have h0 : P / 10 = 0 := Nat.div_eq_of_lt hlt
    rw [h0]
    rfl
  · have hone : (1 : ℚ) ≤ (P : ℚ) * (1 / 10) := by
      rw [mul_one_div, le_div_iff₀ (by norm_num : (0 : ℚ) < 10)]
      simpa using (by exact_mod_cast hge : (10 : ℚ) ≤ (P : ℚ))
    rw [max_eq_left hone, mul_one_div,
      show (10 : ℚ) = ((10 : ℕ) : ℚ) by norm_num,
      Nat.floor_div_nat, Nat.floor_natCast]
    have hquot : 1 ≤ P / 10 := by omega
    omega

theorem gcTimeLimitSec_eq_max_div_witness :
    0 < 25 ∧ gcTimeLimitSec 25 = max (25 / 10) 1 :=
  ⟨by decide, gcTimeLimitSec_eq_max_div 25 (by decide)⟩

/-- C5: `ValidateBatch` returns nil iff every blob passes validation; when the
results arriving on the channel start with passes followed by a failure, that
first failure is returned after exactly that many receives (the remaining
results are left uncollected); the result channel capacity equals the number
of submitted jobs, each of which sends exactly one result, and at each send
the channel occupancy is strictly below capacity, so no send blocks. -/
theorem validateBatch_firstError (opState : OperatorState)
    (verdicts arrival : List (Option Err)) (hperm : arrival.Perm verdicts) :
    (ValidateBatch (Except.ok opState) arrival = none ↔ ∀ v ∈ verdicts, v = none) ∧
    (∀ pre e post, arrival = pre ++ some e :: post → (∀ v ∈ pre, v = none) →
      ValidateBatch (Except.ok opState) arrival = some e ∧
      collectCount arrival = pre.length + 1) ∧
    totalSends verdicts = valChanCapacity (jobsSubmitted verdicts.length) ∧
    (∀ s r, r ≤ s → s < totalSends verdicts → s - r < valChanCapacity verdicts.length) := by
  refine ⟨validateBatch_eq_none_iff opState verdicts arrival hperm, ?_, ?_, ?_⟩
  · intro pre e post hsplit hpre
    subst hsplit
    constructor
    · show collectResults (pre ++ some e :: post) = some e
      rw [collectResults_append_passes pre _ hpre]
      rfl
    · rw [collectCount_append_passes pre _ hpre]
      rfl
  · rw [totalSends_eq_length]
    rfl
  · intro s r hrs hstot
    rw [totalSends_eq_length] at hstot
    unfold valChanCapacity
    omega

theorem validateBatch_firstError_witness :
    (ValidateBatch (Except.ok ⟨1⟩) [none, some "e"] = none ↔
      ∀ v ∈ ([none, some "e"] : List (Option Err)), v = none) ∧
    (∀ pre e post, ([none, some "e"] : List (Option Err)) = pre ++ some e :: post →
      (∀ v ∈ pre, v = none) →
      ValidateBatch (Except.ok ⟨1⟩) [none, some "e"] = some e ∧
      collectCount [none, some "e"] = pre.length + 1) ∧
    totalSends [none, some "e"] =
      valChanCapacity (jobsSubmitted ([none, some "e"] : List (Option Err)).length) ∧
    (∀ s r, r ≤ s → s < totalSends [none, some "e"] →
      s - r < valChanCapacity ([none, some "e"] : List (Option Err)).length) :=
  validateBatch_firstError ⟨1⟩ [none, some "e"] [none, some "e"] (List.Perm.refl _)

/-- C6: when the batch header hash is already present, the store goroutine
normalizes the already-exists outcome to a success with nil error and nil
keys; `ProcessBatch` then deletes nothing even if validation fails,
validation still runs, and a signature over the header hash is returned when
validation passes. -/
theorem processBatch_alreadyExists (inp : ProcessInput) (h : Hash)
    (hh : inp.hashResult = Except.ok h)
    (hex : inp.storeOutcome = StoreOutcome.alreadyExists) :
    storeGoroutine inp.storeOutcome = ⟨none, none⟩ ∧
    (ProcessBatch inp).deleteCalled = false ∧
    (ProcessBatch inp).deletedKeys = [] ∧
    (ProcessBatch inp).validateRan = true ∧
    (ValidateBatch inp.opStateResult inp.arrival = none →
      (ProcessBatch inp).sig = some (signMessage inp.keyPair h)) := by
  refine ⟨by rw [hex]; rfl, ?_, ?_, ?_, ?_⟩ <;>
  · cases hv : ValidateBatch inp.opStateResult inp.arrival <;>
      simp [ProcessBatch, hh, hex, hv, storeGoroutine]

/-- Concrete instantiation of C6: duplicate submission of batch hash 8. -/
def c6Input : ProcessInput :=
  ⟨3, Except.ok 8, StoreOutcome.alreadyExists, Except.ok ⟨6⟩, [none], [none], true⟩

theorem processBatch_alreadyExists_witness :
    storeGoroutine c6Input.storeOutcome = ⟨none, none⟩ ∧
    (ProcessBatch c6Input).deleteCalled = false ∧
    (ProcessBatch c6Input).deletedKeys = [] ∧
    (ProcessBatch c6Input).validateRan = true ∧
    (ValidateBatch c6Input.opStateResult c6Input.arrival = none →
      (ProcessBatch c6Input).sig = some (signMessage c6Input.keyPair 8)) :=
  processBatch_alreadyExists c6Input 8 rfl rfl

/-- C7 (code bug): `checkCurrentNodeIp` creates its timer with `time.NewTimer`
and never resets it (node.go:382), so the timer channel delivers exactly one
value; over a run in which two poll intervals elapse, the poll body runs once,
while the spec requires a poll on every interval. -/
theorem checkCurrentNodeIp_one_shot :
    checkCurrentNodeIp_pollCount 2 = 1 ∧ specPollCount 2 = 2 ∧
    checkCurrentNodeIp_pollCount 2 ≠ specPollCount 2 := by
  refine ⟨rfl, rfl, by decide⟩

/-- C8: when the recomputed socket differs from `CurrentSocket`, a transactor
failure leaves `CurrentSocket` unchanged (and emits no change signal), and
`CurrentSocket` is set to the new value exactly when the on-chain update
succeeds. -/
theorem updateSocketAddress_gating (st : SocketState) (newSocketAddr : String)
    (txResult : Option Err) (hdiff : newSocketAddr ≠ st.currentSocket) :
    ((∃ e, txResult = some e) →
      updateSocketAddress st newSocketAddr txResult = (st, false)) ∧
    (txResult = none →
      updateSocketAddress st newSocketAddr txResult = (⟨newSocketAddr⟩, true)) := by
  constructor
  · rintro ⟨e, rfl⟩
    simp [updateSocketAddress, hdiff]
  · rintro rfl
    simp [updateSocketAddress, hdiff]

theorem updateSocketAddress_gating_witness :
    ((∃ e, (some "rpc down" : Option Err) = some e) →
      updateSocketAddress ⟨"a"⟩ "b" (some "rpc down") = (⟨"a"⟩, false)) ∧
    ((some "rpc down" : Option Err) = none →
      updateSocketAddress ⟨"a"⟩ "b" (some "rpc down") = (⟨"b"⟩, true)) :=
  updateSocketAddress_gating ⟨"a"⟩ "b" (some "rpc down") (by decide)

/-- C9 counterexample: in `Start` (node.go:185) the assignment
`n.CurrentSocket = socket` is performed without taking `n.mu`, so the startup
writer's action trace violates the writes-under-mutex discipline. -/
theorem start_trace_write_unlocked :
    writesUnderMutex (start_trace true) = false := by decide

/-- C9 amended: the two background writers (`updateSocketAddress` on the
local-IP poll path and the on-chain watch loop) mutate `CurrentSocket` only
while holding `n.mu`; the startup registration writer mutates it without the
mutex, but that write is the first socket action of `Start`, preceding the
launch of both watcher goroutines. -/
theorem socket_writers_locking (changed txOk differs watchersEnabled : Bool) :
    writesUnderMutex (updateSocketAddress_trace changed txOk) = true ∧
    writesUnderMutex (watchEvent_trace differs) = true ∧
    (start_trace watchersEnabled).head? = some SockAction.writeSocket := by
  cases changed <;> cases txOk <;> cases differs <;> cases watchersEnabled <;> decide

/-- C10: with an empty blobs list, no validation job is submitted, the
Validator is never invoked, nothing is sent on the result channel, validation
trivially succeeds (only the operator-state fetch occurs), and when storage
succeeds a signature over the batch header hash is returned. -/
theorem processBatch_emptyBlobs (inp : ProcessInput) (h : Hash) (s : OperatorState)
    (hh : inp.hashResult = Except.ok h)
    (hop : inp.opStateResult = Except.ok s)
    (hblobs : inp.blobVerdicts = [])
    (harr : inp.arrival = [])
    (hstore : storeOk inp.storeOutcome = true) :
    jobsSubmitted inp.blobVerdicts.length = 0 ∧
    validatorCalls inp.blobVerdicts = 0 ∧
    totalSends inp.blobVerdicts = 0 ∧
    ValidateBatch inp.opStateResult inp.arrival = none ∧
    (ProcessBatch inp).sig = some (signMessage inp.keyPair h) := by
  have hv : ValidateBatch inp.opStateResult inp.arrival = none := by
    rw [hop, harr]
    rfl
  refine ⟨by rw [hblobs]; rfl, by rw [hblobs]; rfl, by rw [hblobs]; rfl, hv, ?_⟩
  cases ho : inp.storeOutcome with
  | fresh keys => simp [ProcessBatch, hh, hv, ho, storeGoroutine, signMessage]
  | alreadyExists => simp [ProcessBatch, hh, hv, ho, storeGoroutine, signMessage]
  | failure e =>
    rw [ho] at hstore
    exact absurd hstore (by simp [storeOk])

/-- Concrete instantiation of C10: empty batch, idempotent store outcome. -/
def c10Input : ProcessInput :=
  ⟨2, Except.ok 9, StoreOutcome.alreadyExists, Except.ok ⟨1⟩, [], [], true⟩

theorem processBatch_emptyBlobs_witness :
    jobsSubmitted c10Input.blobVerdicts.length = 0 ∧
    validatorCalls c10Input.blobVerdicts = 0 ∧
    totalSends c10Input.blobVerdicts = 0 ∧
    ValidateBatch c10Input.opStateResult c10Input.arrival = none ∧
    (ProcessBatch c10Input).sig = some (signMessage c10Input.keyPair 9) :=
  processBatch_emptyBlobs c10Input 9 ⟨1⟩ rfl rfl rfl rfl rfl

end EigendaNode
